import Mathlib

/-!
Formalisation of the service-to-service authentication subsystem of the
attack-workbench-rest-api repository.

The embedding follows `src/app/services/authn-service.js` and
`src/app/routes/user-accounts-routes.js`.  External node libraries are
modelled as follows:

* `crypto.randomBytes(48)` — the drawn bytes are an explicit argument
  (a `List Nat` whose elements are below 256);
* `buffer.toString('base64')` — implemented as `base64Encode` below,
  following the standard base64 alphabet with `=` padding;
* `crypto.createHmac('sha256', key).update(data).digest('hex')` — an
  explicit function argument `hmacSha256Hex : String → String → String`;
* `jwt.sign(payload, secret)` — an explicit function argument
  `jwtSign : TokenPayload → String → String`;
* `NodeCache` — an association list with `get`/`set`/`take` operations
  (`take` retrieves and deletes the entry in one step).
-/

/-- One configured service account: an element of
`config.serviceAuthn.apikey.serviceAccounts`. -/
structure ServiceAccount where
  name : String
  apikey : String
deriving DecidableEq, Repr

/-- The `config.serviceAuthn.apikey` configuration object. -/
structure ApikeyConfig where
  enable : Bool
  serviceAccounts : List ServiceAccount
  tokenTimeout : Nat
  secret : String
deriving DecidableEq, Repr

/-- The `config.serviceAuthn.oidcClientCredentials` configuration object. -/
structure OidcClientCredentialsConfig where
  enable : Bool
deriving DecidableEq, Repr

/-- The `config.serviceAuthn` configuration object. -/
structure ServiceAuthnConfig where
  oidcClientCredentials : OidcClientCredentialsConfig
  apikey : ApikeyConfig
deriving DecidableEq, Repr

/-- The value cached by `createChallenge`: `\x7b challenge, apikey \x7d`
together with the ttl (seconds) passed to `cache.set`. -/
structure CacheEntry where
  challenge : String
  apikey : String
  ttl : Nat
deriving DecidableEq, Repr

/-- The `NodeCache` instance of authn-service.js, as an association list
keyed by service name. -/
abbrev Cache := List (String × CacheEntry)

/-- `cache.get(key)`: the value stored under `key`, if any. -/
def cacheGet : Cache → String → Option CacheEntry
  | [], _ => none
  | (k2, v) :: rest, k => if k2 = k then some v else cacheGet rest k

/-- Removal of every entry stored under `key` (the deletion half of
`NodeCache.take`, and the overwrite half of `NodeCache.set`). -/
def cacheRemove : Cache → String → Cache
  | [], _ => []
  | (k2, v) :: rest, k =>
    if k2 = k then cacheRemove rest k else (k2, v) :: cacheRemove rest k

/-- `cache.set(key, value, ttl)`: stores `value` under `key`, overwriting
any existing entry for that key. -/
def cacheSet (c : Cache) (k : String) (v : CacheEntry) : Cache :=
  (k, v) :: cacheRemove c k

/-- `cache.take(key)`: retrieves and deletes the entry in one step. -/
def cacheTake (c : Cache) (k : String) : Option CacheEntry × Cache :=
  (cacheGet c k, cacheRemove c k)

/-- Number of entries stored under `key`. -/
def countKey (c : Cache) (k : String) : Nat :=
  (c.filter (fun p => p.1 == k)).length

/-- The base64 alphabet used by `buffer.toString('base64')`. -/
def base64Chars : List Char :=
  ['A', 'B', 'C', 'D', 'E', 'F', 'G', 'H', 'I', 'J', 'K', 'L', 'M',
   'N', 'O', 'P', 'Q', 'R', 'S', 'T', 'U', 'V', 'W', 'X', 'Y', 'Z',
   'a', 'b', 'c', 'd', 'e', 'f', 'g', 'h', 'i', 'j', 'k', 'l', 'm',
   'n', 'o', 'p', 'q', 'r', 's', 't', 'u', 'v', 'w', 'x', 'y', 'z',
   '0', '1', '2', '3', '4', '5', '6', '7', '8', '9', '+', '/']

/-- The character encoding a sextet. -/
def base64Char (n : Nat) : Char :=
  base64Chars.getD n 'A'

/-- Base64 encoding of a byte list (bytes are naturals below 256),
grouping three bytes into four sextet characters, with `=` padding. -/
def base64EncodeList : List Nat → List Char
  | a :: b :: c :: rest =>
    base64Char (a / 4) :: base64Char ((a % 4) * 16 + b / 16) ::
    base64Char ((b % 16) * 4 + c / 64) :: base64Char (c % 64) ::
    base64EncodeList rest
  | [a, b] =>
    [base64Char (a / 4), base64Char ((a % 4) * 16 + b / 16),
     base64Char ((b % 16) * 4), '=']
  | [a] =>
    [base64Char (a / 4), base64Char ((a % 4) * 16), '=', '=']
  | [] => []

/-- `buffer.toString('base64')` on a byte list. -/
def base64Encode (bytes : List Nat) : String :=
  String.mk (base64EncodeList bytes)

/-- Base64 decoding, the left inverse of `base64EncodeList` on valid
byte lists; used to establish injectivity of the encoding. -/
def base64DecodeList : List Char → List Nat
  | c1 :: c2 :: c3 :: c4 :: rest =>
    let v1 := base64Chars.indexOf c1
    let v2 := base64Chars.indexOf c2
    if c3 = '=' then
      [v1 * 4 + v2 / 16]
    else
      let v3 := base64Chars.indexOf c3
      if c4 = '=' then
        [v1 * 4 + v2 / 16, (v2 % 16) * 16 + v3 / 4]
      else
        (v1 * 4 + v2 / 16) :: ((v2 % 16) * 16 + v3 / 4) ::
        ((v3 % 4) * 64 + base64Chars.indexOf c4) :: base64DecodeList rest
  | _ => []

/-- The `byteLength` constant of `generateNonce`. -/
def byteLength : Nat := 48

/-- `generateNonce()`: base64-encodes the bytes drawn by
`crypto.randomBytes(byteLength)`; the drawn bytes are the argument. -/
def generateNonce (randomBytes : List Nat) : String :=
  base64Encode randomBytes

/-- The `errors` taxonomy of authn-service.js. -/
inductive AuthnError
  | serviceNotFound
  | invalidChallengeHash
  | challengeNotFound
deriving DecidableEq, Repr

/-- The JWT payload built by `createToken`. -/
structure TokenPayload where
  serviceName : String
  exp : Nat
deriving DecidableEq, Repr

/-- The value returned by a successful `createToken`. -/
structure TokenResult where
  token : String
  expiresIn : Nat
deriving DecidableEq, Repr

/-- `createChallenge(serviceName)`.  Looks the service up in the
configured registry, fails with `serviceNotFound` when absent; otherwise
generates a nonce, caches `\x7b challenge, apikey \x7d` under the service
name with ttl 60 and returns the challenge.  The mutated cache is the
second component of the result. -/
def createChallenge (cfg : ServiceAuthnConfig) (randomBytes : List Nat)
    (cache : Cache) (serviceName : String) :
    Except AuthnError String × Cache :=
  match cfg.apikey.serviceAccounts.find? (fun s => s.name == serviceName) with
  | none => (Except.error AuthnError.serviceNotFound, cache)
  | some service =>
    let challenge := generateNonce randomBytes
    (Except.ok challenge,
     cacheSet cache serviceName ⟨challenge, service.apikey, 60⟩)

/-- `createToken(serviceName, challengeHash)`.  Takes (and thereby
removes) the cached challenge, fails with `challengeNotFound` when
absent; recomputes the HMAC digest of the cached challenge under the
cached apikey and fails with `invalidChallengeHash` on mismatch;
otherwise signs a token asserting the service name and the expiry
`floor(nowMs / 1000) + tokenTimeout`.  The mutated cache is the second
component of the result. -/
def createToken (hmacSha256Hex : String → String → String)
    (jwtSign : TokenPayload → String → String)
    (cfg : ServiceAuthnConfig) (nowMs : Nat) (cache : Cache)
    (serviceName challengeHash : String) :
    Except AuthnError TokenResult × Cache :=
  match cacheTake cache serviceName with
  | (none, cache2) => (Except.error AuthnError.challengeNotFound, cache2)
  | (some cachedValue, cache2) =>
    let digest := hmacSha256Hex cachedValue.apikey cachedValue.challenge
    if digest ≠ challengeHash then
      (Except.error AuthnError.invalidChallengeHash, cache2)
    else
      let timeout := cfg.apikey.tokenTimeout
      let payload : TokenPayload := ⟨serviceName, nowMs / 1000 + timeout⟩
      let token := jwtSign payload cfg.apikey.secret
      (Except.ok ⟨token, timeout⟩, cache2)

/-- The authenticated identity attached to a request, with its roles. -/
structure Principal where
  roles : List String
deriving DecidableEq, Repr

/-- A request as seen by the authentication middleware.
`hasAuthHeader` models the truthiness of `req.get('Authorization')`;
`sessionPrincipal` is the identity of the server session, if any
(`req.isAuthenticated()` is its presence); `bearerPrincipal` models the
outcome of the bearer-token verification that `authnBearer.authenticate`
would perform for this request (the verifier itself lives in
`lib/authn-bearer`, outside the embedded sources): `some p` when the
presented token verifies and attaches principal `p`, `none` when
verification rejects. -/
structure Request where
  hasAuthHeader : Bool
  sessionPrincipal : Option Principal
  bearerPrincipal : Option Principal
deriving DecidableEq, Repr

/-- `req.isAuthenticated()`: the session holds an identity. -/
def isAuthenticated (req : Request) : Bool :=
  req.sessionPrincipal.isSome

/-- The three observable outcomes of the `authenticate` middleware. -/
inductive AuthOutcome
  | bearer
  | sessionNext
  | reject401
deriving DecidableEq, Repr

/-- `authenticate(req, res, next)`: delegates to the Bearer strategy
when a bearer-capable strategy is enabled and the Authorization header
is present; otherwise calls `next()` when session-authenticated;
otherwise responds 401. -/
def authenticate (cfg : ServiceAuthnConfig) (req : Request) : AuthOutcome :=
  if (cfg.oidcClientCredentials.enable || cfg.apikey.enable)
      && req.hasAuthHeader then
    AuthOutcome.bearer
  else if isAuthenticated req then
    AuthOutcome.sessionNext
  else
    AuthOutcome.reject401

/-- The principal the `authenticate` middleware attaches to the request
when it lets the request proceed: the bearer-verified principal on the
bearer path, the session identity on the session path, nothing on
rejection. -/
def attachedPrincipal (cfg : ServiceAuthnConfig) (req : Request) :
    Option Principal :=
  match authenticate cfg req with
  | AuthOutcome.bearer => req.bearerPrincipal
  | AuthOutcome.sessionNext => req.sessionPrincipal
  | AuthOutcome.reject401 => none

/-- Modelled from the spec: the fixed administrator role constant
`authz.admin` of the authz-middleware module, which is not among the
embedded sources. -/
def admin : String := "admin"

/-- Modelled from the spec: the authorization gate `requireRole(role)`
of the authz-middleware module (not among the embedded sources): given
the principal attached by the request authenticator, it passes exactly
when a principal is present and holds the role; otherwise the request
is rejected before the protected operation. -/
def requireRolePasses (role : String) (principal : Option Principal) :
    Bool :=
  match principal with
  | some p => decide (role ∈ p.roles)
  | none => false

/-- One element of an express middleware chain as used by the
user-accounts routes. -/
inductive Middleware
  | authn
  | requireRole (role : String)
  | controller (handlerName : String)
deriving DecidableEq, Repr

/-- The outcome of running a middleware chain on a request: either some
controller handler is invoked, or the request is rejected with an HTTP
status before reaching it. -/
inductive RouteResult
  | handled (handlerName : String)
  | rejected (status : Nat)
deriving DecidableEq, Repr

/-- Sequential execution of a middleware chain.  `principal` is the
identity attached so far (`req.user`).  The `authn` step runs
`authenticate`: the bearer path proceeds only when the token verifies
(attaching the verified principal), the session path proceeds with the
session identity, rejection stops the chain with 401.  The
`requireRole` step applies the authorization gate and rejects with 403
when it does not pass.  A `controller` step invokes the handler. -/
def runChain (cfg : ServiceAuthnConfig) (req : Request) :
    Option Principal → List Middleware → RouteResult
  | _, [] => RouteResult.rejected 404
  | _, Middleware.authn :: rest =>
    match authenticate cfg req with
    | AuthOutcome.bearer =>
      match req.bearerPrincipal with
      | some p => runChain cfg req (some p) rest
      | none => RouteResult.rejected 401
    | AuthOutcome.sessionNext => runChain cfg req req.sessionPrincipal rest
    | AuthOutcome.reject401 => RouteResult.rejected 401
  | principal, Middleware.requireRole role :: rest =>
    if requireRolePasses role principal then runChain cfg req principal rest
    else RouteResult.rejected 403
  | _, Middleware.controller handlerName :: _ =>
    RouteResult.handled handlerName

/-- The route table of `src/app/routes/user-accounts-routes.js`:
(path, method, middleware chain). -/
def userAccountsRoutes : List (String × String × List Middleware) :=
  [("/user-accounts", "get",
    [Middleware.authn, Middleware.requireRole admin,
     Middleware.controller "retrieveAll"]),
   ("/user-accounts", "post",
    [Middleware.authn, Middleware.requireRole admin,
     Middleware.controller "create"]),
   ("/user-accounts/:id", "get",
    [Middleware.authn, Middleware.requireRole admin,
     Middleware.controller "retrieveById"]),
   ("/user-accounts/:id", "put",
    [Middleware.authn, Middleware.requireRole admin,
     Middleware.controller "updateFull"]),
   ("/user-accounts/:id", "delete",
    [Middleware.authn, Middleware.requireRole admin,
     Middleware.controller "delete"]),
   ("/user-accounts/register", "post",
    [Middleware.authn, Middleware.requireRole admin,
     Middleware.controller "register"])]

/-- A concrete stand-in for the hex HMAC-SHA-256 digest function, used
to evaluate the service on closed inputs. -/
def demoHmac (key data : String) : String :=
  "hmac:" ++ key ++ ":" ++ data

/-- A concrete stand-in for `jwt.sign`, used to evaluate the service on
closed inputs. -/
def demoSign (payload : TokenPayload) (secret : String) : String :=
  "jwt:" ++ payload.serviceName ++ ":" ++ toString payload.exp ++ ":" ++ secret

/-- A concrete configuration with the apikey strategy enabled and one
registered service account. -/
def wCfg : ServiceAuthnConfig :=
  ⟨⟨false⟩, ⟨true, [⟨"svc-A", "k1"⟩], 300, "signing-secret"⟩⟩

/-- A concrete configuration with every bearer-capable strategy
disabled. -/
def wCfgDisabled : ServiceAuthnConfig :=
  ⟨⟨false⟩, ⟨false, [⟨"svc-A", "k1"⟩], 300, "signing-secret"⟩⟩

/-- A concrete cached challenge entry for `svc-A`. -/
def wEntry : CacheEntry := ⟨"nonce-1", "k1", 60⟩

/-- A concrete cache holding one challenge for `svc-A`. -/
def wCache : Cache := [("svc-A", wEntry)]

/-- A request presenting an Authorization header whose token verifies. -/
def wReqBearer : Request := ⟨true, none, some ⟨[]⟩⟩

/-- A request presenting an Authorization header while also holding an
established session. -/
def wReqHeaderSession : Request := ⟨true, some ⟨["admin"]⟩, none⟩

/-- A request with no Authorization header and an established session. -/
def wReqSession : Request := ⟨false, some ⟨["admin"]⟩, none⟩

/-- A request with no Authorization header and no session. -/
def wReqAnon : Request := ⟨false, none, none⟩

/-- A concrete 48-byte sequence. -/
def wBytes1 : List Nat := List.replicate 48 0

/-- A second, distinct concrete 48-byte sequence. -/
def wBytes2 : List Nat := 1 :: List.replicate 47 0

/-- Whether a `createToken` outcome issued a token. -/
def tokenIssued (r : Except AuthnError TokenResult) : Bool :=
  match r with
  | Except.ok _ => true
  | Except.error _ => false

/-- The middleware chain of `GET /user-accounts`. -/
def wChainGet : List Middleware :=
  [Middleware.authn, Middleware.requireRole admin,
   Middleware.controller "retrieveAll"]

/- Helper lemmas about the cache operations. -/

theorem cacheGet_cacheRemove (c : Cache) (k : String) :
    cacheGet (cacheRemove c k) k = none := by
  induction c with
  | nil => rfl
  | cons hd tl ih =>
    obtain ⟨k2, v⟩ := hd
    by_cases h : k2 = k
    · simpa [cacheRemove, h] using ih
    · simp [cacheRemove, cacheGet, h, ih]

theorem cacheGet_cacheSet_self (c : Cache) (k : String) (v : CacheEntry) :
    cacheGet (cacheSet c k v) k = some v := by
  simp [cacheSet, cacheGet]

theorem countKey_cacheRemove_self (c : Cache) (k : String) :
    countKey (cacheRemove c k) k = 0 := by
  induction c with
  | nil => rfl
  | cons hd tl ih =>
    obtain ⟨k2, v⟩ := hd
    by_cases h : k2 = k
    · simpa [cacheRemove, h] using ih
    · simp [cacheRemove, countKey, List.filter, h] at ih ⊢
      exact ih

theorem countKey_cacheRemove_le (c : Cache) (k k2 : String) :
    countKey (cacheRemove c k2) k ≤ countKey c k := by
  induction c with
  | nil => exact Nat.le_refl 0
  | cons hd tl ih =>
    obtain ⟨k3, v⟩ := hd
    by_cases h : k3 = k2
    · simp only [cacheRemove, h, if_pos rfl]
      calc countKey (cacheRemove tl k2) k ≤ countKey tl k := ih
        _ ≤ countKey ((k2, v) :: tl) k := by
            by_cases h2 : (k2 == k) = true <;>
              simp [countKey, List.filter, h2]
    · by_cases h2 : (k3 == k) = true <;>
        simp [cacheRemove, countKey, List.filter, h, h2] at ih ⊢ <;> omega

theorem countKey_cacheSet_self (c : Cache) (k : String) (v : CacheEntry) :
    countKey (cacheSet c k v) k = 1 := by
  have h := countKey_cacheRemove_self c k
  simp [cacheSet, countKey, List.filter] at h ⊢
  exact h

theorem countKey_cacheSet_le (c : Cache) (k k2 : String) (v : CacheEntry)
    (hle : countKey c k2 ≤ 1) : countKey (cacheSet c k v) k2 ≤ 1 := by
  by_cases h : k = k2
  · subst h
    exact Nat.le_of_eq (countKey_cacheSet_self c k v)
  · have hbeq : (k == k2) = false := by simpa using h
    calc countKey (cacheSet c k v) k2
        = countKey (cacheRemove c k) k2 := by
          simp [cacheSet, countKey, List.filter, hbeq]
      _ ≤ countKey c k2 := countKey_cacheRemove_le c k2 k
      _ ≤ 1 := hle

/- Helper lemmas about the base64 encoding. -/

theorem base64Chars_indexOf_base64Char :
    ∀ n, n < 64 → base64Chars.indexOf (base64Char n) = n := by decide

theorem base64Char_ne_pad : ∀ n, n < 64 → base64Char n ≠ '=' := by decide

theorem base64_roundtrip_fuel (n : Nat) :
    ∀ bytes : List Nat, bytes.length ≤ n → (∀ x ∈ bytes, x < 256) →
      bytes.length % 3 = 0 →
      base64DecodeList (base64EncodeList bytes) = bytes := by
  induction n with
  | zero =>
    intro bytes hlen _ _
    match bytes with
    | [] => rfl
    | _ :: _ => simp at hlen
  | succ n ih =>
    intro bytes hlen hv hl
    match bytes with
    | [] => rfl
    | [_] => simp at hl
    | [_, _] => simp at hl
    | a :: b :: c :: rest =>
      have ha : a < 256 := hv a (by simp)
      have hb : b < 256 := hv b (by simp)
      have hc : c < 256 := hv c (by simp)
      have hrest : ∀ x ∈ rest, x < 256 := fun x hx => hv x (by simp [hx])
      have hlen2 : rest.length ≤ n := by simp at hlen; omega
      have hl2 : rest.length % 3 = 0 := by simp at hl; omega
      have ihr := ih rest hlen2 hrest hl2
      have h1 : a / 4 < 64 := by omega
      have h2 : (a % 4) * 16 + b / 16 < 64 := by omega
      have h3 : (b % 16) * 4 + c / 64 < 64 := by omega
      have h4 : c % 64 < 64 := by omega
      have e1 := base64Chars_indexOf_base64Char (a / 4) h1
      have e2 := base64Chars_indexOf_base64Char ((a % 4) * 16 + b / 16) h2
      have e3 := base64Chars_indexOf_base64Char ((b % 16) * 4 + c / 64) h3
      have e4 := base64Chars_indexOf_base64Char (c % 64) h4
      have ne3 := base64Char_ne_pad ((b % 16) * 4 + c / 64) h3
      have ne4 := base64Char_ne_pad (c % 64) h4
      simp only [base64EncodeList, base64DecodeList, e1, e2, e3, e4,
        if_neg ne3, if_neg ne4, ihr, List.cons.injEq]
      refine ⟨by omega, by omega, by omega, trivial⟩

theorem base64_decode_encode (bytes : List Nat)
    (hv : ∀ x ∈ bytes, x < 256) (hl : bytes.length % 3 = 0) :
    base64DecodeList (base64EncodeList bytes) = bytes :=
  base64_roundtrip_fuel bytes.length bytes (Nat.le_refl _) hv hl

theorem base64EncodeList_length_fuel (n : Nat) :
    ∀ bytes : List Nat, bytes.length ≤ n → bytes.length % 3 = 0 →
      (base64EncodeList bytes).length = bytes.length / 3 * 4 := by
  induction n with
  | zero =>
    intro bytes hlen _
    match bytes with
    | [] => rfl
    | _ :: _ => simp at hlen
  | succ n ih =>
    intro bytes hlen hl
    match bytes with
    | [] => rfl
    | [_] => simp at hl
    | [_, _] => simp at hl
    | a :: b :: c :: rest =>
      have hlen2 : rest.length ≤ n := by simp at hlen; omega
      have hl2 : rest.length % 3 = 0 := by simp at hl; omega
      have ihr := ih rest hlen2 hl2
      simp only [base64EncodeList, List.length_cons, ihr]
      omega

theorem base64EncodeList_length (bytes : List Nat)
    (hl : bytes.length % 3 = 0) :
    (base64EncodeList bytes).length = bytes.length / 3 * 4 :=
  base64EncodeList_length_fuel bytes.length bytes (Nat.le_refl _) hl

/- Claim theorems. -/

/-- Claim C1: every redemption attempt consumes the cached challenge
before the proof is checked: for every serviceName with a cached
challenge, a call to `createToken` removes the entry (whatever hash is
supplied), so any subsequent redemption of the same challenge — after a
success or after a failed attempt — fails with `challengeNotFound`,
never with `invalidChallengeHash` a second time. -/
theorem createToken_consumes_challenge
    (hmacSha256Hex : String → String → String)
    (jwtSign : TokenPayload → String → String)
    (cfg : ServiceAuthnConfig) (nowMs nowMs2 : Nat) (cache : Cache)
    (serviceName challengeHash challengeHash2 : String)
    (entry : CacheEntry)
    (hc : cacheGet cache serviceName = some entry) :
    cacheGet (createToken hmacSha256Hex jwtSign cfg nowMs cache
        serviceName challengeHash).2 serviceName = none ∧
    (createToken hmacSha256Hex jwtSign cfg nowMs2
        (createToken hmacSha256Hex jwtSign cfg nowMs cache
          serviceName challengeHash).2
        serviceName challengeHash2).1
      = Except.error AuthnError.challengeNotFound := by
  have hsnd : (createToken hmacSha256Hex jwtSign cfg nowMs cache
      serviceName challengeHash).2 = cacheRemove cache serviceName := by
    by_cases hd :
        hmacSha256Hex entry.apikey entry.challenge ≠ challengeHash <;>
      simp [createToken, cacheTake, hc, hd]
  have hget : cacheGet (cacheRemove cache serviceName) serviceName = none :=
    cacheGet_cacheRemove cache serviceName
  refine ⟨by rw [hsnd]; exact hget, ?_⟩
  rw [hsnd]
  simp [createToken, cacheTake, hget]

/-- Claim C1 witness: a concrete cache with a challenge for `svc-A`,
redeemed with a wrong proof; the entry is gone and the retry fails with
`challengeNotFound`. -/
theorem createToken_consumes_challenge_witness :
    cacheGet wCache "svc-A" = some wEntry ∧
    (cacheGet (createToken demoHmac demoSign wCfg 1000 wCache
        "svc-A" "bad").2 "svc-A" = none ∧
     (createToken demoHmac demoSign wCfg 2000
        (createToken demoHmac demoSign wCfg 1000 wCache "svc-A" "bad").2
        "svc-A" "bad").1 = Except.error AuthnError.challengeNotFound) :=
  ⟨by decide,
   createToken_consumes_challenge demoHmac demoSign wCfg 1000 2000 wCache
     "svc-A" "bad" "bad" wEntry (by decide)⟩

/-- Claim C3: given that a challenge entry is cached for the service,
`createToken` issues a token exactly when the supplied hash equals the
HMAC digest of the stored challenge under the stored apikey, and on any
mismatch it fails with `invalidChallengeHash`. -/
theorem createToken_checks_hash
    (hmacSha256Hex : String → String → String)
    (jwtSign : TokenPayload → String → String)
    (cfg : ServiceAuthnConfig) (nowMs : Nat) (cache : Cache)
    (serviceName challengeHash : String) (entry : CacheEntry)
    (hc : cacheGet cache serviceName = some entry) :
    (tokenIssued (createToken hmacSha256Hex jwtSign cfg nowMs cache
          serviceName challengeHash).1 = true ↔
        challengeHash = hmacSha256Hex entry.apikey entry.challenge) ∧
    (challengeHash ≠ hmacSha256Hex entry.apikey entry.challenge →
      (createToken hmacSha256Hex jwtSign cfg nowMs cache
          serviceName challengeHash).1
        = Except.error AuthnError.invalidChallengeHash) := by
  by_cases hd :
      hmacSha256Hex entry.apikey entry.challenge = challengeHash
  · constructor
    · simp [createToken, cacheTake, hc, hd, tokenIssued]
    · intro hne
      exact absurd hd.symm hne
  · constructor
    · simp [createToken, cacheTake, hc, hd, tokenIssued]
      exact fun h => absurd h.symm hd
    · intro _
      simp [createToken, cacheTake, hc, hd]

/-- Claim C3 witness: a wrong proof against a concrete cached challenge
fails with `invalidChallengeHash` and issues no token. -/
theorem createToken_checks_hash_witness :
    cacheGet wCache "svc-A" = some wEntry ∧
    ((tokenIssued (createToken demoHmac demoSign wCfg 1000 wCache
          "svc-A" "wrong").1 = true ↔
        "wrong" = demoHmac wEntry.apikey wEntry.challenge) ∧
     ("wrong" ≠ demoHmac wEntry.apikey wEntry.challenge →
       (createToken demoHmac demoSign wCfg 1000 wCache
           "svc-A" "wrong").1
         = Except.error AuthnError.invalidChallengeHash)) :=
  ⟨by decide,
   createToken_checks_hash demoHmac demoSign wCfg 1000 wCache "svc-A"
     "wrong" wEntry (by decide)⟩

/-- Claim C4: on successful redemption `createToken` returns the signed
token asserting the service name and the expiry `now + tokenTimeout`
(seconds), signed with the service-wide signing secret, together with
`expiresIn` equal to the configured `tokenTimeout`. -/
theorem createToken_success_result
    (hmacSha256Hex : String → String → String)
    (jwtSign : TokenPayload → String → String)
    (cfg : ServiceAuthnConfig) (nowMs : Nat) (cache : Cache)
    (serviceName challengeHash : String) (entry : CacheEntry)
    (hc : cacheGet cache serviceName = some entry)
    (hh : challengeHash = hmacSha256Hex entry.apikey entry.challenge) :
    (createToken hmacSha256Hex jwtSign cfg nowMs cache
        serviceName challengeHash).1
      = Except.ok
          ⟨jwtSign ⟨serviceName, nowMs / 1000 + cfg.apikey.tokenTimeout⟩
             cfg.apikey.secret,
           cfg.apikey.tokenTimeout⟩ := by
  simp [createToken, cacheTake, hc, hh]

/-- Claim C4 witness: redeeming a concrete cached challenge with the
matching proof returns the signed token and the configured timeout. -/
theorem createToken_success_result_witness :
    cacheGet wCache "svc-A" = some wEntry ∧
    "hmac:k1:nonce-1" = demoHmac wEntry.apikey wEntry.challenge ∧
    (createToken demoHmac demoSign wCfg 5678 wCache
        "svc-A" "hmac:k1:nonce-1").1
      = Except.ok
          ⟨demoSign ⟨"svc-A", 5678 / 1000 + wCfg.apikey.tokenTimeout⟩
             wCfg.apikey.secret,
           wCfg.apikey.tokenTimeout⟩ :=
  ⟨by decide, by decide,
   createToken_success_result demoHmac demoSign wCfg 5678 wCache "svc-A"
     "hmac:k1:nonce-1" wEntry (by decide) (by decide)⟩

/-- Claim C5: for every serviceName that matches no configured service
account (comparison is exact, hence case-sensitive string equality),
`createChallenge` fails with `serviceNotFound` and returns the cache
unchanged — no entry is created under any key. -/
theorem createChallenge_unregistered (cfg : ServiceAuthnConfig)
    (randomBytes : List Nat) (cache : Cache) (serviceName : String)
    (h : ∀ svc ∈ cfg.apikey.serviceAccounts, svc.name ≠ serviceName) :
    createChallenge cfg randomBytes cache serviceName
      = (Except.error AuthnError.serviceNotFound, cache) := by
  have hfind : cfg.apikey.serviceAccounts.find?
      (fun s => s.name == serviceName) = none := by
    rw [List.find?_eq_none]
    intro x hx
    simpa using h x hx
  simp [createChallenge, hfind]

/-- Claim C5 witness: `svc-B` is not registered in the concrete
configuration; `createChallenge` rejects it and leaves the cache as it
was. -/
theorem createChallenge_unregistered_witness :
    (∀ svc ∈ wCfg.apikey.serviceAccounts, svc.name ≠ "svc-B") ∧
    createChallenge wCfg wBytes1 wCache "svc-B"
      = (Except.error AuthnError.serviceNotFound, wCache) :=
  ⟨by decide,
   createChallenge_unregistered wCfg wBytes1 wCache "svc-B" (by decide)⟩

/-- Claim C6: a successful `createChallenge` returns exactly the nonce
it stores, stores the pair of nonce and apikey under the service name
with ttl 60, leaves exactly one entry under that name (overwriting any
prior challenge), and preserves the at-most-one-entry-per-name
invariant of the whole cache. -/
theorem createChallenge_registered (cfg : ServiceAuthnConfig)
    (randomBytes : List Nat) (cache : Cache) (serviceName : String)
    (service : ServiceAccount)
    (hfind : cfg.apikey.serviceAccounts.find?
        (fun s => s.name == serviceName) = some service) :
    (createChallenge cfg randomBytes cache serviceName).1
        = Except.ok (generateNonce randomBytes) ∧
    cacheGet (createChallenge cfg randomBytes cache serviceName).2
        serviceName
      = some ⟨generateNonce randomBytes, service.apikey, 60⟩ ∧
    countKey (createChallenge cfg randomBytes cache serviceName).2
        serviceName = 1 ∧
    ((∀ k, countKey cache k ≤ 1) →
      ∀ k, countKey (createChallenge cfg randomBytes cache serviceName).2
          k ≤ 1) := by
  have h2 : (createChallenge cfg randomBytes cache serviceName).2
      = cacheSet cache serviceName
          ⟨generateNonce randomBytes, service.apikey, 60⟩ := by
    simp [createChallenge, hfind]
  refine ⟨by simp [createChallenge, hfind], ?_, ?_, ?_⟩
  · rw [h2]
    exact cacheGet_cacheSet_self cache serviceName _
  · rw [h2]
    exact countKey_cacheSet_self cache serviceName _
  · intro hinv k
    rw [h2]
    exact countKey_cacheSet_le cache serviceName k _ (hinv k)

/-- Claim C6 witness: issuing a fresh challenge for `svc-A` over a cache
already holding one: the old entry is overwritten, the new nonce and
apikey are stored with ttl 60, and exactly one entry remains. -/
theorem createChallenge_registered_witness :
    wCfg.apikey.serviceAccounts.find? (fun s => s.name == "svc-A")
        = some ⟨"svc-A", "k1"⟩ ∧
    (createChallenge wCfg wBytes1 wCache "svc-A").1
        = Except.ok (generateNonce wBytes1) ∧
    cacheGet (createChallenge wCfg wBytes1 wCache "svc-A").2 "svc-A"
        = some ⟨generateNonce wBytes1, "k1", 60⟩ ∧
    countKey (createChallenge wCfg wBytes1 wCache "svc-A").2 "svc-A" = 1 :=
  ⟨by decide,
   (createChallenge_registered wCfg wBytes1 wCache "svc-A"
       ⟨"svc-A", "k1"⟩ (by decide)).1,
   (createChallenge_registered wCfg wBytes1 wCache "svc-A"
       ⟨"svc-A", "k1"⟩ (by decide)).2.1,
   (createChallenge_registered wCfg wBytes1 wCache "svc-A"
       ⟨"svc-A", "k1"⟩ (by decide)).2.2.1⟩

/-- Claim C10: `createToken` never consults the service-account
registry: two configurations that agree on everything except the
`serviceAccounts` list produce identical results on every cache, clock
value and input. -/
theorem createToken_independent_of_registry
    (hmacSha256Hex : String → String → String)
    (jwtSign : TokenPayload → String → String)
    (oidc : OidcClientCredentialsConfig) (enable : Bool)
    (accounts1 accounts2 : List ServiceAccount)
    (tokenTimeout : Nat) (secret : String) (nowMs : Nat) (cache : Cache)
    (serviceName challengeHash : String) :
    createToken hmacSha256Hex jwtSign
        ⟨oidc, ⟨enable, accounts1, tokenTimeout, secret⟩⟩
        nowMs cache serviceName challengeHash
      = createToken hmacSha256Hex jwtSign
          ⟨oidc, ⟨enable, accounts2, tokenTimeout, secret⟩⟩
          nowMs cache serviceName challengeHash := rfl

/-- Claim C2 counterexample: with every bearer-capable strategy disabled
in configuration, a request that does carry an Authorization header and
holds a session is handled as a session request, not as a bearer
request — the claim's "regardless of which authentication strategies
configuration enables" fails. -/
theorem authenticate_header_as_session_cex :
    wReqHeaderSession.hasAuthHeader = true ∧
    authenticate wCfgDisabled wReqHeaderSession = AuthOutcome.sessionNext := by
  constructor <;> rfl

/-- Claim C2 (amended): when a bearer-capable strategy is enabled by
configuration, a request carrying a credential header is always handled
as a bearer request and never as a session request; and a request
without a credential header is never handled as a bearer request,
regardless of configuration. -/
theorem authenticate_dispatch (cfg : ServiceAuthnConfig) (req : Request) :
    ((cfg.oidcClientCredentials.enable || cfg.apikey.enable) = true →
        req.hasAuthHeader = true →
        authenticate cfg req = AuthOutcome.bearer) ∧
    (req.hasAuthHeader = false →
        authenticate cfg req ≠ AuthOutcome.bearer) ∧
    ((cfg.oidcClientCredentials.enable || cfg.apikey.enable) = true →
        req.hasAuthHeader = true →
        authenticate cfg req ≠ AuthOutcome.sessionNext) := by
  refine ⟨?_, ?_, ?_⟩
  · intro he hh
    simp [authenticate, he, hh]
  · intro hh
    by_cases hs : isAuthenticated req <;> simp [authenticate, hh, hs]
  · intro he hh
    simp [authenticate, he, hh]

/-- Claim C2 witness: with the apikey strategy enabled, a concrete
request with an Authorization header goes to the bearer path, and a
concrete request without one never does. -/
theorem authenticate_dispatch_witness :
    authenticate wCfg wReqBearer = AuthOutcome.bearer ∧
    authenticate wCfg wReqSession ≠ AuthOutcome.bearer ∧
    authenticate wCfg wReqBearer ≠ AuthOutcome.sessionNext :=
  ⟨(authenticate_dispatch wCfg wReqBearer).1 rfl rfl,
   (authenticate_dispatch wCfg wReqSession).2.1 rfl,
   (authenticate_dispatch wCfg wReqBearer).2.2 rfl rfl⟩

/-- Claim C7: a request with no Authorization header and no established
session is rejected by `authenticate` with HTTP 401, and a middleware
chain starting with `authenticate` stops there — the rest of the chain
is never run. -/
theorem authenticate_anonymous_rejected (cfg : ServiceAuthnConfig)
    (req : Request) (hh : req.hasAuthHeader = false)
    (hs : req.sessionPrincipal = none) :
    authenticate cfg req = AuthOutcome.reject401 ∧
    ∀ rest : List Middleware,
      runChain cfg req none (Middleware.authn :: rest)
        = RouteResult.rejected 401 := by
  have ha : authenticate cfg req = AuthOutcome.reject401 := by
    simp [authenticate, isAuthenticated, hh, hs]
  exact ⟨ha, fun rest => by simp [runChain, ha]⟩

/-- Claim C7 witness: a concrete anonymous request is rejected with 401
and a concrete chain starting with `authenticate` never reaches the
later middleware. -/
theorem authenticate_anonymous_rejected_witness :
    authenticate wCfg wReqAnon = AuthOutcome.reject401 ∧
    runChain wCfg wReqAnon none
        (Middleware.authn ::
          [Middleware.requireRole admin,
           Middleware.controller "retrieveAll"])
      = RouteResult.rejected 401 :=
  ⟨(authenticate_anonymous_rejected wCfg wReqAnon rfl rfl).1,
   (authenticate_anonymous_rejected wCfg wReqAnon rfl rfl).2
     [Middleware.requireRole admin, Middleware.controller "retrieveAll"]⟩

/-- Claim C8: `generateNonce` encodes exactly `byteLength = 48` drawn
bytes; the encoded challenge string has a fixed length (64 characters),
and the encoding is injective on 48-byte draws, so two calls whose
underlying random byte sequences differ return different strings. -/
theorem generateNonce_fixed_length_injective (b1 b2 : List Nat)
    (h1 : b1.length = byteLength) (h2 : b2.length = byteLength)
    (hv1 : ∀ x ∈ b1, x < 256) (hv2 : ∀ x ∈ b2, x < 256) :
    byteLength = 48 ∧
    (generateNonce b1).length = 64 ∧
    (b1 ≠ b2 → generateNonce b1 ≠ generateNonce b2) := by
  have hm1 : b1.length % 3 = 0 := by rw [h1]; rfl
  have hm2 : b2.length % 3 = 0 := by rw [h2]; rfl
  refine ⟨rfl, ?_, ?_⟩
  · have hlen : (generateNonce b1).length = (base64EncodeList b1).length :=
      rfl
    rw [hlen, base64EncodeList_length b1 hm1, h1]
    rfl
  · intro hne he
    apply hne
    have hdata : base64EncodeList b1 = base64EncodeList b2 :=
      congrArg String.data he
    calc b1 = base64DecodeList (base64EncodeList b1) :=
          (base64_decode_encode b1 hv1 hm1).symm
      _ = base64DecodeList (base64EncodeList b2) := by rw [hdata]
      _ = b2 := base64_decode_encode b2 hv2 hm2

/-- Claim C8 witness: two concrete, distinct 48-byte draws yield
64-character, distinct nonces. -/
theorem generateNonce_fixed_length_injective_witness :
    wBytes1.length = byteLength ∧ wBytes2.length = byteLength ∧
    (byteLength = 48 ∧
     (generateNonce wBytes1).length = 64 ∧
     (wBytes1 ≠ wBytes2 → generateNonce wBytes1 ≠ generateNonce wBytes2)) :=
  ⟨by decide, by decide,
   generateNonce_fixed_length_injective wBytes1 wBytes2 (by decide)
     (by decide) (by decide) (by decide)⟩

/-- Helper for C9: a chain of the shape authenticate, requireRole,
controller never invokes the controller when the authorization gate
does not pass for the principal the authenticator attaches. -/
theorem runChain_role_blocked (cfg : ServiceAuthnConfig) (req : Request)
    (role handlerName : String)
    (hfail : requireRolePasses role (attachedPrincipal cfg req) = false) :
    ∀ name, runChain cfg req none
        [Middleware.authn, Middleware.requireRole role,
         Middleware.controller handlerName]
      ≠ RouteResult.handled name := by
  intro name
  cases hA : authenticate cfg req with
  | bearer =>
    cases hB : req.bearerPrincipal with
    | none => simp [runChain, hA, hB]
    | some p =>
      have hp : attachedPrincipal cfg req = some p := by
        simp [attachedPrincipal, hA, hB]
      rw [hp] at hfail
      simp [runChain, hA, hB, hfail]
  | sessionNext =>
    have hp : attachedPrincipal cfg req = req.sessionPrincipal := by
      simp [attachedPrincipal, hA]
    rw [hp] at hfail
    simp [runChain, hA, hfail]
  | reject401 => simp [runChain, hA]

/-- Claim C9: every user-accounts route chains authentication, then the
administrator-role gate, then the controller; for every request whose
attached principal is absent or lacks the administrator role, the chain
rejects before the controller — the protected operation is never
invoked. -/
theorem userAccountsRoutes_admin_guard (path method : String)
    (chain : List Middleware)
    (hroute : (path, method, chain) ∈ userAccountsRoutes)
    (cfg : ServiceAuthnConfig) (req : Request)
    (hfail : requireRolePasses admin (attachedPrincipal cfg req) = false) :
    (∃ handlerName, chain =
        [Middleware.authn, Middleware.requireRole admin,
         Middleware.controller handlerName]) ∧
    ∀ name, runChain cfg req none chain ≠ RouteResult.handled name := by
  have hshape : ∃ handlerName, chain =
      [Middleware.authn, Middleware.requireRole admin,
       Middleware.controller handlerName] := by
    simp only [userAccountsRoutes, List.mem_cons, List.not_mem_nil,
      or_false, Prod.mk.injEq] at hroute
    rcases hroute with ⟨_, _, h⟩ | ⟨_, _, h⟩ | ⟨_, _, h⟩ | ⟨_, _, h⟩ |
      ⟨_, _, h⟩ | ⟨_, _, h⟩ <;> exact ⟨_, h⟩
  obtain ⟨handlerName, rfl⟩ := hshape
  exact ⟨⟨handlerName, rfl⟩,
    runChain_role_blocked cfg req admin handlerName hfail⟩

/-- Claim C9 witness: the concrete `GET /user-accounts` route, hit by a
concrete request without the administrator role, never invokes
`retrieveAll`. -/
theorem userAccountsRoutes_admin_guard_witness :
    ("/user-accounts", "get", wChainGet) ∈ userAccountsRoutes ∧
    requireRolePasses admin (attachedPrincipal wCfg wReqAnon) = false ∧
    runChain wCfg wReqAnon none wChainGet
      ≠ RouteResult.handled "retrieveAll" :=
  ⟨by decide, by decide,
   (userAccountsRoutes_admin_guard "/user-accounts" "get" wChainGet
       (by decide) wCfg wReqAnon (by decide)).2 "retrieveAll"⟩
